import Mathlib

/-!
Verification of the ScholarLens search aggregation engine.

This file gives a shallow embedding, in Lean 4, of the search pipeline of
the ScholarLens backend (`src/Services/SearchService.cs`,
`src/Services/IRankingService.cs`,
`src/scholarlens/backend/ScholarLens.Api/Controllers/Api/SearchController.cs`)
and proves or refutes the specification claims about it.

Modelling conventions:
- C# records become Lean structures; `string?` becomes `Option String`;
  nullable ints become `Option Int`.
- Doubles are modelled as real numbers (`ℝ`) where transcendental
  functions occur (ranking scores) and as rationals (`ℚ`) where the code
  only uses field operations (title similarity).  Integer division in the
  C# source is modelled as `Nat` division.
- `string.IsNullOrEmpty(x)` for an `Option String` is `x.getD "" = ""`.
- `ToLowerInvariant` is modelled with `String.toLower` (the titles and
  queries in all concrete inputs below are ASCII, where the two agree).
- Database `Guid` identifiers are modelled as `Nat` (fresh id = current
  table size); `CreatedAt`/`ProcessingTime` timestamps and the raw JSON
  payload columns (`RawData`/`RawJson`) are not modelled: no claim
  mentions them and no control flow depends on them.
- Asynchronous methods are modelled as pure functions of their inputs
  plus oracles for the external collaborators (source clients, the
  open-access resolver); an oracle returning `none` models the call
  raising an exception.
-/

namespace ScholarLens

/-! String primitives.  The Lean core versions of `toLower`, `trim` and
`split` are implemented with well-founded recursion over byte positions
and do not reduce in the kernel, so the corresponding .NET string
operations are modelled charwise by structural recursion; on the ASCII
data handled here they agree with the core versions. -/

/-- The .NET `ToLowerInvariant`, modelled charwise. -/
def toLowerString (s : String) : String :=
  String.mk (s.data.map Char.toLower)

/-- The .NET `Trim()` (strip leading and trailing whitespace), modelled
charwise. -/
def trimString (s : String) : String :=
  String.mk (((s.data.dropWhile Char.isWhitespace).reverse.dropWhile Char.isWhitespace).reverse)

/-- Accumulator-passing splitter: cuts the character list at every
delimiter, emitting the piece gathered so far (possibly empty). -/
def splitAuxL (p : Char → Bool) : List Char → List Char → List String
  | [], acc => [String.mk acc.reverse]
  | c :: cs, acc =>
    if p c then String.mk acc.reverse :: splitAuxL p cs []
    else splitAuxL p cs (c :: acc)

/-- The .NET `string.Split(delimiters, StringSplitOptions.RemoveEmptyEntries)`:
cut at every delimiter character and drop the empty pieces. -/
def splitString (p : Char → Bool) (s : String) : List String :=
  (splitAuxL p s.data []).filter fun t => !(t == "")

/-- Author record normalized across sources
(`ExternalAuthor` in `IExternalApiClient.cs`). -/
structure ExternalAuthor where
  Name : String
  Affiliation : Option String
deriving DecidableEq, Repr

/-- Open access information returned by the Unpaywall-style resolver
(`OpenAccessInfo` in `IExternalApiClient.cs`; the `Updated` timestamp is
not modelled). -/
structure OpenAccessInfo where
  IsOpenAccess : Bool
  PdfUrl : Option String
  License : Option String
deriving DecidableEq, Repr

/-- Normalized paper shape produced by every source client
(`ExternalPaper` in `IExternalApiClient.cs`; the opaque `RawData` payload
is not modelled). -/
structure ExternalPaper where
  Source : String := ""
  Title : String := ""
  Authors : List ExternalAuthor := []
  Abstract : String := ""
  Doi : Option String := none
  Url : Option String := none
  PdfUrl : Option String := none
  Year : Option Int := none
  Venue : Option String := none
  IsOpenAccess : Bool := false
deriving DecidableEq, Repr

/-- The C# test `!string.IsNullOrEmpty(paper.Doi)` used throughout
`SearchService.cs`: the paper carries a DOI that is neither null nor
the empty string. -/
def hasDoi (p : ExternalPaper) : Bool :=
  !(p.Doi.getD "" == "")

/-- The DOI string stored into the `seenDois` hash set by
`DeduplicatePapersAsync` (meaningful only when `hasDoi` holds). -/
def doiOf (p : ExternalPaper) : String :=
  p.Doi.getD ""

/-- Delimiters of the tokenizers in `IRankingService.cs`
(space, tab, newline, carriage return and sentence punctuation). -/
def isDelim (c : Char) : Bool :=
  c == ' ' || c == '\t' || c == '\n' || c == '\r' ||
  c == '.' || c == ',' || c == ';' || c == ':' || c == '!' || c == '?'

/-- Substring test: `s` contains `sub` (C# `string.Contains`).  An empty
`sub` is contained in every string, as in .NET. -/
def containsSubstr (s sub : String) : Bool :=
  decide (sub.data <:+: s.data)

/-- Translation of `SearchService.CalculateJaroWinklerSimilarity`
(`SearchService.cs:252-271`).  Despite its name the source computes a
character-intersection ratio: the count of distinct characters of `str1`
that occur in `str2`, divided by the average of the two lengths, after
case folding and trimming; equal folded strings short-circuit to 1 and
an empty input short-circuits to 0.  Doubles are modelled as `ℚ`. -/
def CalculateJaroWinklerSimilarity (str1 str2 : String) : ℚ :=
  if str1 == "" || str2 == "" then 0
  else
    let s1 := trimString (toLowerString str1)
    let s2 := trimString (toLowerString str2)
    if s1 == s2 then 1
    else
      let commonChars : ℚ := ((s1.data.eraseDups.filter fun c => s2.data.contains c).length : ℚ)
      let totalChars : ℚ := ((s1.length + s2.length : ℕ) : ℚ) / 2
      commonChars / totalChars

/-- Additive information score used by `SearchService.IsPreferablePaper`
(`SearchService.cs:223-250`): +3 for a DOI, +2 for a PDF URL, +2 for a
non-empty abstract, +1 for open access, plus the author count.  The C#
method computes this score once for the candidate and once for the
existing paper with identical code; it is factored out here. -/
def preferenceScore (p : ExternalPaper) : Nat :=
  (if hasDoi p then 3 else 0) +
  (if !(p.PdfUrl.getD "" == "") then 2 else 0) +
  (if !(p.Abstract == "") then 2 else 0) +
  (if p.IsOpenAccess then 1 else 0) +
  p.Authors.length

/-- Translation of `SearchService.IsPreferablePaper`
(`SearchService.cs:223-250`): the candidate wins only with a strictly
higher score; ties keep the existing paper. -/
def IsPreferablePaper (candidate existing : ExternalPaper) : Bool :=
  preferenceScore candidate > preferenceScore existing

/-- Loop state of `DeduplicatePapersAsync` (`SearchService.cs:164-221`):
the accepted papers, the hash set of seen DOIs (modelled as a list), and
the `(title, paper)` pairs used for similarity comparison. -/
structure DedupState where
  dedup : List ExternalPaper
  seenDois : List String
  seenTitles : List (String × ExternalPaper)
deriving Repr

/-- Body of the `foreach` loop of `DeduplicatePapersAsync`
(`SearchService.cs:172-218`).  A DOI-bearing paper is dropped if its DOI
was seen and accepted otherwise, with no title comparison.  A DOI-less
paper is compared against the already-seen titles in order; at the first
similarity above 0.92 it either replaces the matched paper (when
preferable) or is dropped, and the scan stops (`break`); with no match it
is accepted.  `List.erase` models `List<T>.Remove` (removes the first
equal element). -/
def dedupStep (s : DedupState) (paper : ExternalPaper) : DedupState :=
  if hasDoi paper then
    if s.seenDois.contains (doiOf paper) then s
    else
      { dedup := s.dedup ++ [paper]
        seenDois := s.seenDois ++ [doiOf paper]
        seenTitles := s.seenTitles ++ [(paper.Title, paper)] }
  else
    match s.seenTitles.find? (fun te => decide ((0.92 : ℚ) < CalculateJaroWinklerSimilarity paper.Title te.1)) with
    | some te =>
      if IsPreferablePaper paper te.2 then
        { dedup := (s.dedup.erase te.2) ++ [paper]
          seenDois := s.seenDois
          seenTitles := (s.seenTitles.erase te) ++ [(paper.Title, paper)] }
      else s
    | none =>
      { dedup := s.dedup ++ [paper]
        seenDois := s.seenDois
        seenTitles := s.seenTitles ++ [(paper.Title, paper)] }

/-- Translation of `SearchService.DeduplicatePapersAsync`
(`SearchService.cs:164-221`): fold the loop body over the input and
return the accepted papers. -/
def DeduplicatePapersAsync (papers : List ExternalPaper) : List ExternalPaper :=
  (papers.foldl dedupStep ⟨[], [], []⟩).dedup

/-! Ranking service (`IRankingService.cs`).  Double arithmetic with
`Math.Log`/`Math.Exp` is modelled over `ℝ`.  The C# `score / queryTerms.Count`
with an empty tokenized term list and a non-empty document computes
`Math.Min(1.0, 0.0/0)`, which is NaN; in the `ℝ` model division by zero
yields 0 instead, which is the only spot where the embedding departs from
IEEE semantics.  The claims about score values (C5 and C6) are therefore
stated only for a nonempty tokenized query, where the model and the
program agree; the NaN behaviour of the empty case is recorded in the
doc comments of those theorems. -/

/-- Ranking weights (`IRankingService.cs:24-26`). -/
def KeywordWeight : ℝ := 0.6

/-- Weight of the semantic component (reserved; the component itself is 0). -/
def SemanticWeight : ℝ := 0.3

/-- Weight of the recency component. -/
def RecencyWeight : ℝ := 0.1

/-- Translation of `RankingService.TokenizeQuery` (`IRankingService.cs:73-84`):
lower-case, split on delimiters dropping empty entries, keep tokens longer
than 2 characters, deduplicate keeping first occurrences (LINQ `Distinct`). -/
def TokenizeQuery (query : String) : List String :=
  ((splitString isDelim (toLowerString query)).filter fun t => t.length > 2).eraseDups

/-- Translation of `RankingService.TokenizeText` (`IRankingService.cs:126-132`):
same splitting and length filter, but no deduplication. -/
def TokenizeText (text : String) : List String :=
  (splitString isDelim text).filter fun t => t.length > 2

/-- Token list of the document scored by BM25: the concatenation of title
and abstract, lower-cased (`IRankingService.cs:95-96`). -/
def documentTokens (paper : ExternalPaper) : List String :=
  TokenizeText (toLowerString (paper.Title ++ " " ++ paper.Abstract))

/-- Term frequency used by `CalculateBM25Score` (`IRankingService.cs:108`):
the number of document tokens related to the term by substring containment
in either direction. -/
def termFrequency (docTokens : List String) (term : String) : Nat :=
  (docTokens.filter fun tok => containsSubstr tok term || containsSubstr term tok).length

/-- Translation of `RankingService.CalculateBM25Score`
(`IRankingService.cs:86-124`).  `avgDocLength` and `docLength` are both the
document token count (C# `int`s, hence the `Nat` division in the length
normalization, which equals 1 for a non-empty document).  Terms with zero
frequency are skipped (`continue`); the pseudo-IDF assumes a corpus of 100
documents; the final value is `Min(1.0, score / queryTerms.Count)`. -/
noncomputable def CalculateBM25Score (queryTerms : List String) (paper : ExternalPaper) : ℝ :=
  let k1 : ℝ := 1.2
  let b : ℝ := 0.75
  let docTokens := documentTokens paper
  if docTokens.isEmpty then 0
  else
    let avgDocLength : ℕ := docTokens.length
    let docLength : ℕ := docTokens.length
    let score : ℝ :=
      (queryTerms.map fun term =>
        let termFreq := termFrequency docTokens term
        if termFreq = 0 then 0
        else
          let idf : ℝ := Real.log (100 / ((max 1 termFreq : ℕ) : ℝ))
          let tf : ℝ := ((termFreq : ℝ) * (k1 + 1)) /
            ((termFreq : ℝ) + k1 * (1 - b + b * ((docLength / avgDocLength : ℕ) : ℝ)))
          idf * tf).sum
    min 1 (score / (queryTerms.length : ℝ))

/-- Translation of `RankingService.CalculateRecencyScore`
(`IRankingService.cs:134-144`): exponential decay `exp(-0.15 * max 0 (cy - y))`,
0 for an unknown year. -/
noncomputable def CalculateRecencyScore (paperYear : Option Int) (currentYear : Int) : ℝ :=
  match paperYear with
  | none => 0
  | some y => Real.exp (-(0.15 : ℝ) * ((max 0 (currentYear - y) : ℤ) : ℝ))

/-- Final score of one paper as computed in the loop of
`RankingService.RankPapersAsync` (`IRankingService.cs:48-59`); the semantic
component is the hard-coded 0. -/
noncomputable def finalScore (currentYear : Int) (queryTerms : List String) (paper : ExternalPaper) : ℝ :=
  KeywordWeight * CalculateBM25Score queryTerms paper +
  SemanticWeight * 0 +
  RecencyWeight * CalculateRecencyScore paper.Year currentYear

/-- Comparison used to model LINQ `OrderByDescending(x => x.score)` on
index-tagged elements: higher score first, and among equal scores the
original position decides.  LINQ documents `OrderByDescending` as a stable
sort, which is exactly a sort by this lexicographic key. -/
noncomputable def scoreDescLe (key : α → ℝ) (a b : ℕ × α) : Bool :=
  decide (key b.2 < key a.2 ∨ (key a.2 = key b.2 ∧ a.1 ≤ b.1))

/-- Stable descending sort keeping the index tags
(model of `OrderByDescending`, `IRankingService.cs:62-65`). -/
noncomputable def OrderByDescendingTagged (key : α → ℝ) (l : List α) : List (ℕ × α) :=
  l.enum.mergeSort (scoreDescLe key)

/-- Index-tagged result of `RankingService.RankPapersAsync`. -/
noncomputable def RankPapersTagged (currentYear : Int) (query : String) (papers : List ExternalPaper) : List (ℕ × ExternalPaper) :=
  OrderByDescendingTagged (finalScore currentYear (TokenizeQuery query)) papers

/-- Translation of `RankingService.RankPapersAsync` (`IRankingService.cs:33-71`):
an empty input is returned as is; otherwise the papers are sorted by
descending final score with a stable sort and returned without any score
attached (the method's return type is the bare paper list). -/
noncomputable def RankPapersAsync (currentYear : Int) (query : String) (papers : List ExternalPaper) : List ExternalPaper :=
  if papers.isEmpty then papers
  else (RankPapersTagged currentYear query papers).map Prod.snd

/-! Search orchestrator (`SearchService.cs`) and its persistence model. -/

/-- Search request DTO (`SearchRequest.cs:8-24`).  `Limit` is a C# `int`. -/
structure SearchRequest where
  Query : String := ""
  YearFrom : Option Int := none
  YearTo : Option Int := none
  Limit : Int := 25
  Language : String := "en"
  OpenAccessOnly : Bool := false
deriving DecidableEq, Repr

/-- Persisted topic row (`Models/Topic.cs`); the `Guid` key is modelled as
a `Nat` assigned at creation, `CreatedAt` is not modelled. -/
structure Topic where
  Id : Nat
  Query : String
  Language : String
  YearFrom : Option Int
  YearTo : Option Int
deriving DecidableEq, Repr

/-- Persisted search result row (`Models/SearchResult.cs`).  The
`AuthorsJson` column stores `JsonSerializer.Serialize(paper.Authors)`;
serialization followed by the deserialization in `MapToDto` is the
identity on author lists, so the column is modelled as the list itself.
`RawJson`, `CreatedAt` and the `Guid` row id are not modelled. -/
structure SearchResult where
  TopicId : Nat
  Source : String
  Title : String
  AuthorsJson : List ExternalAuthor
  Abstract : String
  Doi : Option String
  Url : Option String
  PdfUrl : Option String
  Year : Option Int
  Venue : Option String
  IsOpenAccess : Bool
  Score : ℝ

/-- Author DTO of the response (`SearchRequest.cs:58-62`). -/
structure AuthorDto where
  Name : String
  Affiliation : Option String
deriving DecidableEq, Repr

/-- Response item DTO (`SearchRequest.cs:38-53`, as filled by
`SearchService.MapToDto`). -/
structure SearchResultDto where
  Source : String
  Title : String
  Authors : List AuthorDto
  Abstract : String
  Doi : Option String
  Url : Option String
  PdfUrl : Option String
  Year : Option Int
  Venue : Option String
  IsOpenAccess : Bool
  Score : ℝ

/-- Response metadata (`SearchRequest.cs:67-74`; `ProcessingTime` is wall
clock and not modelled). -/
structure SearchMetadata where
  Query : String
  TotalResults : Nat
  FilteredResults : Nat
  SourceCounts : List (String × Nat)

/-- Search response (`SearchRequest.cs:29-33`). -/
structure SearchResponse where
  Results : List SearchResultDto
  Metadata : SearchMetadata

/-- The persistence store visible to the engine: the `Topics` and
`SearchResults` tables of `ScholarLensDbContext`. -/
structure Store where
  topics : List Topic
  results : List SearchResult

/-- Collaborator oracles injected into `SearchService`:
the per-client search outcomes (`none` models the client call raising an
exception, `some papers` a successful return), the open-access resolver
(`none` models `LookupAsync` throwing, `some none` a null result,
`some (some info)` a successful lookup), and the ranking service
(`IRankingService` is an injected dependency of the orchestrator). -/
structure SearchDeps where
  clientResults : List (Option (List ExternalPaper))
  oaLookup : String → Option (Option OpenAccessInfo)
  rank : String → List ExternalPaper → List ExternalPaper

/-- Translation of `SearchService.SearchClientSafelyAsync`
(`SearchService.cs:112-131`): any exception from the client is caught and
converted to an empty list. -/
def SearchClientSafelyAsync (outcome : Option (List ExternalPaper)) : List ExternalPaper :=
  outcome.getD []

/-- Translation of `SearchService.GetOrCreateTopicAsync`
(`SearchService.cs:133-162`): reuse the first topic row matching the
request signature, otherwise create and commit a new row. -/
def GetOrCreateTopicAsync (req : SearchRequest) (st : Store) : Topic × Store :=
  match st.topics.find? (fun t =>
      t.Query == req.Query && t.Language == req.Language &&
      t.YearFrom == req.YearFrom && t.YearTo == req.YearTo) with
  | some t => (t, st)
  | none =>
    let t : Topic := ⟨st.topics.length, req.Query, req.Language, req.YearFrom, req.YearTo⟩
    (t, { st with topics := st.topics ++ [t] })

/-- Updated copy of a paper computed inside the enhancement lambda of
`EnhanceWithOpenAccessAsync` (`SearchService.cs:284-303`): on a successful
non-null lookup the record is copied with the new open-access fields; a
null result or a thrown lookup leaves the copy equal to the paper. -/
def enhancedCopy (lookup : String → Option (Option OpenAccessInfo)) (paper : ExternalPaper) : ExternalPaper :=
  match lookup (doiOf paper) with
  | some (some info) =>
    { paper with
        IsOpenAccess := info.IsOpenAccess
        PdfUrl := match info.PdfUrl with | some u => some u | none => paper.PdfUrl }
  | _ => paper

/-- Translation of `SearchService.EnhanceWithOpenAccessAsync`
(`SearchService.cs:273-310`).  The DOI-bearing papers are processed in
batches of 10; inside each batch the lambda assigns the updated copy to
its own local variable (`paper = paper with { ... }`), which is then
discarded — the list and the records it holds are never written.  The
batching and the discarded copies are kept here to mirror the source; the
function returns the input list. -/
def EnhanceWithOpenAccessAsync (lookup : String → Option (Option OpenAccessInfo))
    (papers : List ExternalPaper) : List ExternalPaper :=
  let _discardedCopies :=
    (((papers.filter hasDoi).toChunks 10).map fun batch => batch.map (enhancedCopy lookup))
  papers

/-- Translation of `SearchService.SaveSearchResultsAsync`
(`SearchService.cs:312-345`): each final paper becomes a new
`SearchResult` row under the topic, with `Score = 0.0` (the source comment
says the ranking service will set it, but nothing ever does); the rows are
appended to the store and returned. -/
def SaveSearchResultsAsync (topic : Topic) (papers : List ExternalPaper) (st : Store) :
    List SearchResult × Store :=
  let rows := papers.map fun p =>
    { TopicId := topic.Id
      Source := p.Source
      Title := p.Title
      AuthorsJson := p.Authors
      Abstract := p.Abstract
      Doi := p.Doi
      Url := p.Url
      PdfUrl := p.PdfUrl
      Year := p.Year
      Venue := p.Venue
      IsOpenAccess := p.IsOpenAccess
      Score := (0 : ℝ) : SearchResult }
  (rows, { st with results := st.results ++ rows })

/-- Translation of `SearchService.MapToDto` (`SearchService.cs:347-383`):
field-wise copy of the persisted row, deserializing the author list. -/
def MapToDto (row : SearchResult) : SearchResultDto :=
  { Source := row.Source
    Title := row.Title
    Authors := row.AuthorsJson.map fun a => ⟨a.Name, a.Affiliation⟩
    Abstract := row.Abstract
    Doi := row.Doi
    Url := row.Url
    PdfUrl := row.PdfUrl
    Year := row.Year
    Venue := row.Venue
    IsOpenAccess := row.IsOpenAccess
    Score := row.Score }

/-- Per-source paper counts of the metadata
(`flatResults.GroupBy(p => p.Source)`, `SearchService.cs:97-98`); LINQ
`GroupBy` lists keys in first-occurrence order. -/
def sourceCounts (papers : List ExternalPaper) : List (String × Nat) :=
  (papers.map (fun p => p.Source)).eraseDups.map fun src =>
    (src, (papers.filter fun p => p.Source == src).length)

/-- State threaded through the stages of `SearchService.SearchAsync`
(`SearchService.cs:40-103`): the store plus the method's local variables. -/
structure PipeState where
  store : Store
  topic : Option Topic
  flatResults : List ExternalPaper
  dedupResults : List ExternalPaper
  rankedResults : List ExternalPaper
  finalResults : List ExternalPaper
  savedResults : List SearchResult

/-- Stage 1: topic creation (`SearchService.cs:47`); this commits a new
topic row before any source is contacted. -/
def stageTopic (req : SearchRequest) (s : PipeState) : PipeState :=
  let ts := GetOrCreateTopicAsync req s.store
  { s with topic := some ts.1, store := ts.2 }

/-- Stage 2: parallel fan-out to all source clients with per-client
exception recovery, then flattening (`SearchService.cs:50-55`). -/
def stageFanOut (clientResults : List (Option (List ExternalPaper))) (s : PipeState) : PipeState :=
  { s with flatResults := (clientResults.map SearchClientSafelyAsync).flatten }

/-- Stage 3: deduplication (`SearchService.cs:61`). -/
def stageDedup (s : PipeState) : PipeState :=
  { s with dedupResults := DeduplicatePapersAsync s.flatResults }

/-- Stage 4: open-access enrichment (`SearchService.cs:66`). -/
def stageEnrich (lookup : String → Option (Option OpenAccessInfo)) (s : PipeState) : PipeState :=
  { s with dedupResults := EnhanceWithOpenAccessAsync lookup s.dedupResults }

/-- Stage 5: optional open-access filter (`SearchService.cs:69-73`). -/
def stageFilter (req : SearchRequest) (s : PipeState) : PipeState :=
  { s with dedupResults :=
      if req.OpenAccessOnly then s.dedupResults.filter fun p => p.IsOpenAccess
      else s.dedupResults }

/-- Stage 6: ranking through the injected ranking service
(`SearchService.cs:76-77`). -/
def stageRank (rank : String → List ExternalPaper → List ExternalPaper)
    (req : SearchRequest) (s : PipeState) : PipeState :=
  { s with rankedResults := rank req.Query s.dedupResults }

/-- Stage 7: truncation to the requested limit, after ranking
(`SearchService.cs:80`); LINQ `Take` of a negative count yields the empty
list, hence `Int.toNat`. -/
def stageTruncate (req : SearchRequest) (s : PipeState) : PipeState :=
  { s with finalResults := s.rankedResults.take req.Limit.toNat }

/-- Stage 8: persistence of the final results (`SearchService.cs:83`). -/
def stageSave (s : PipeState) : PipeState :=
  match s.topic with
  | some t =>
    let rs := SaveSearchResultsAsync t s.finalResults s.store
    { s with savedResults := rs.1, store := rs.2 }
  | none => s

/-- The stages of `SearchService.SearchAsync` in program order.  The
cancellation token is checked between stages and inside the awaited calls,
so a cancellation that fires after `k` completed stages aborts the method
with exactly the first `k` stages' effects applied. -/
def searchStages (deps : SearchDeps) (req : SearchRequest) : List (PipeState → PipeState) :=
  [stageTopic req, stageFanOut deps.clientResults, stageDedup,
   stageEnrich deps.oaLookup, stageFilter req, stageRank deps.rank req,
   stageTruncate req, stageSave]

/-- Initial pipeline state over a given store. -/
def initPipeState (st : Store) : PipeState :=
  ⟨st, none, [], [], [], [], []⟩

/-- State after the first `k` stages of `SearchService.SearchAsync`
have completed (`k = 8` is the full pipeline; smaller `k` is the state at
which a cancellation observed between stages aborts the method). -/
def runStages (deps : SearchDeps) (req : SearchRequest) (st : Store) (k : Nat) : PipeState :=
  ((searchStages deps req).take k).foldl (fun s f => f s) (initPipeState st)

/-- Translation of `SearchService.SearchAsync` (`SearchService.cs:36-110`):
run all stages and build the response from the saved rows and the
collected metadata. -/
def SearchAsync (deps : SearchDeps) (req : SearchRequest) (st : Store) : Store × SearchResponse :=
  let s := runStages deps req st 8
  (s.store,
   { Results := s.savedResults.map MapToDto
     Metadata :=
       { Query := req.Query
         TotalResults := s.flatResults.length
         FilteredResults := s.finalResults.length
         SourceCounts := sourceCounts s.flatResults } })

/-! HTTP layer (`SearchController.cs`, `SearchRequest.cs`). -/

/-- Validation outcomes of a search request
(`SearchController.cs:56-131`): the 400 responses. -/
inductive SearchProblem
  | invalidModelState
  | invalidYearRange
  | invalidYearFrom
  | invalidYearTo
deriving DecidableEq, Repr

/-- Declarative validation of `SearchRequest.cs:8-24`, enforced by
ASP.NET model binding before the controller action runs (`[ApiController]`
auto-400): query length within 3..1000, limit within 1..100, language at
most 5 characters. -/
def modelStateIsValid (req : SearchRequest) : Bool :=
  decide (3 ≤ req.Query.length) && decide (req.Query.length ≤ 1000) &&
  decide (1 ≤ req.Limit) && decide (req.Limit ≤ 100) &&
  decide (req.Language.length ≤ 5)

/-- Year-range check of `SearchController.SearchAsync`
(`SearchController.cs:65-75`): both bounds present and `YearFrom > YearTo`. -/
def yearRangeInvalid (req : SearchRequest) : Bool :=
  match req.YearFrom, req.YearTo with
  | some f, some t => decide (t < f)
  | _, _ => false

/-- Lower/upper sanity check of `YearFrom`
(`SearchController.cs:79-88`): present and outside `[1900, currentYear+1]`. -/
def yearFromInvalid (currentYear : Int) (req : SearchRequest) : Bool :=
  match req.YearFrom with
  | some f => decide (f < 1900 ∨ currentYear + 1 < f)
  | none => false

/-- Lower/upper sanity check of `YearTo` (`SearchController.cs:90-99`). -/
def yearToInvalid (currentYear : Int) (req : SearchRequest) : Bool :=
  match req.YearTo with
  | some t => decide (t < 1900 ∨ currentYear + 1 < t)
  | none => false

/-- Translation of `SearchController.SearchAsync`
(`SearchController.cs:56-131`) including the framework's model validation:
each failed check returns a 400 problem without touching the store or the
search service; only a fully valid request reaches `SearchService.SearchAsync`. -/
def ControllerSearchAsync (deps : SearchDeps) (currentYear : Int) (req : SearchRequest)
    (st : Store) : Store × Except SearchProblem SearchResponse :=
  if !(modelStateIsValid req) then (st, Except.error SearchProblem.invalidModelState)
  else if yearRangeInvalid req then (st, Except.error SearchProblem.invalidYearRange)
  else if yearFromInvalid currentYear req then (st, Except.error SearchProblem.invalidYearFrom)
  else if yearToInvalid currentYear req then (st, Except.error SearchProblem.invalidYearTo)
  else
    let r := SearchAsync deps req st
    (r.1, Except.ok r.2)

/-! Deduplication invariants (claims C1 and C2). -/

/-- Papers satisfying the non-empty-DOI test have a non-empty DOI string. -/
lemma doiOf_ne_empty_of_hasDoi {p : ExternalPaper} (h : hasDoi p = true) : doiOf p ≠ "" := by
  simpa [hasDoi, doiOf] using h

/-- No two entries of the list carry the same non-empty DOI. -/
def noDuplicateDois (l : List ExternalPaper) : Prop :=
  l.Pairwise fun p q => hasDoi p = true → doiOf p ≠ doiOf q

/-- Invariant of the deduplication loop: every accepted DOI-bearing paper
has its DOI registered in the seen-DOI set, and the accepted list carries
no duplicate DOIs. -/
def DoiInv (s : DedupState) : Prop :=
  (∀ p ∈ s.dedup, hasDoi p = true → doiOf p ∈ s.seenDois) ∧ noDuplicateDois s.dedup

lemma dedupStep_doiInv {s : DedupState} {paper : ExternalPaper}
    (h : DoiInv s) : DoiInv (dedupStep s paper) := by
  obtain ⟨hmem, hpw⟩ := h
  unfold dedupStep
  split
  next hd =>
    split
    next hc => exact ⟨hmem, hpw⟩
    next hc =>
      have hnotmem : doiOf paper ∉ s.seenDois := by
        intro hin
        exact hc (by simpa using hin)
      refine ⟨?_, ?_⟩
      · intro p hp hdp
        rcases List.mem_append.mp hp with h1 | h1
        · exact List.mem_append_left _ (hmem p h1 hdp)
        · have : p = paper := by simpa using h1
          subst this
          exact List.mem_append_right _ (by simp)
      · refine List.pairwise_append.mpr ⟨hpw, List.pairwise_singleton _ _, ?_⟩
        intro a ha b hb
        have hb' : b = paper := by simpa using hb
        subst hb'
        intro hda hEq
        exact hnotmem (hEq ▸ hmem a ha hda)
  next hd =>
    have hdp : hasDoi paper = false := by
      cases hpaper : hasDoi paper with
      | true => exact absurd hpaper hd
      | false => rfl
    split
    next te hfind =>
      split
      next hpref =>
        refine ⟨?_, ?_⟩
        · intro p hp h1
          rcases List.mem_append.mp hp with h2 | h2
          · exact hmem p (List.mem_of_mem_erase h2) h1
          · have : p = paper := by simpa using h2
            subst this
            simp [hdp] at h1
        · refine List.pairwise_append.mpr
            ⟨hpw.sublist (List.erase_sublist _ _), List.pairwise_singleton _ _, ?_⟩
          intro a ha b hb
          have hb' : b = paper := by simpa using hb
          rw [hb']
          intro hda hEq
          have hempty : doiOf paper = "" := by simpa [hasDoi, doiOf] using hdp
          exact doiOf_ne_empty_of_hasDoi hda (hEq.trans hempty)
      next hpref => exact ⟨hmem, hpw⟩
    next hfind =>
      refine ⟨?_, ?_⟩
      · intro p hp h1
        rcases List.mem_append.mp hp with h2 | h2
        · exact hmem p h2 h1
        · have : p = paper := by simpa using h2
          subst this
          simp [hdp] at h1
      · refine List.pairwise_append.mpr ⟨hpw, List.pairwise_singleton _ _, ?_⟩
        intro a ha b hb
        have hb' : b = paper := by simpa using hb
        rw [hb']
        intro hda hEq
        have hempty : doiOf paper = "" := by simpa [hasDoi, doiOf] using hdp
        exact doiOf_ne_empty_of_hasDoi hda (hEq.trans hempty)

lemma foldl_doiInv : ∀ (l : List ExternalPaper) (s : DedupState),
    DoiInv s → DoiInv (l.foldl dedupStep s)
  | [], _, h => h
  | _ :: ps, _, h => foldl_doiInv ps _ (dedupStep_doiInv h)

/-- C1 (amended): within one search's final output, no two results share
the same non-empty DOI.  (The title-similarity half of the original claim
is refuted by `claim1Counterexample` below.) -/
theorem claim1DoiUniqueness (papers : List ExternalPaper) :
    noDuplicateDois (DeduplicatePapersAsync papers) :=
  (foldl_doiInv papers ⟨[], [], []⟩ ⟨by simp, List.Pairwise.nil⟩).2

/-- Predicate matching papers that carry a non-empty DOI equal to `d`. -/
def doiMatches (d : Option String) (q : ExternalPaper) : Bool :=
  hasDoi q && (q.Doi == d)

/-- Invariant of the deduplication loop relating the state to the already
processed prefix of the input: the seen-DOI set is exactly the set of DOI
strings occurring in the prefix, and every accepted DOI-bearing paper is
the first paper of the prefix carrying its DOI. -/
def FirstOccInv (pre : List ExternalPaper) (s : DedupState) : Prop :=
  (∀ d : String, d ∈ s.seenDois ↔ ∃ q ∈ pre, hasDoi q = true ∧ doiOf q = d) ∧
  (∀ p ∈ s.dedup, hasDoi p = true → pre.find? (doiMatches p.Doi) = some p)

lemma dedupStep_firstOcc {pre : List ExternalPaper} {s : DedupState} {paper : ExternalPaper}
    (h : FirstOccInv pre s) : FirstOccInv (pre ++ [paper]) (dedupStep s paper) := by
  obtain ⟨hiff, hfirst⟩ := h
  have hlift : ∀ p : ExternalPaper, pre.find? (doiMatches p.Doi) = some p →
      (pre ++ [paper]).find? (doiMatches p.Doi) = some p := by
    intro p hp
    simp [List.find?_append, hp]
  unfold dedupStep
  split
  next hd =>
    split
    next hc =>
      refine ⟨?_, ?_⟩
      · intro d
        constructor
        · intro hds
          obtain ⟨q, hq, hqd, hqdoi⟩ := (hiff d).mp hds
          exact ⟨q, List.mem_append_left _ hq, hqd, hqdoi⟩
        · rintro ⟨q, hq, hqd, hqdoi⟩
          rcases List.mem_append.mp hq with h1 | h1
          · exact (hiff d).mpr ⟨q, h1, hqd, hqdoi⟩
          · have hq' : q = paper := by simpa using h1
            rw [hq'] at hqdoi
            have hps : doiOf paper ∈ s.seenDois := by simpa using hc
            exact hqdoi ▸ hps
      · intro p hp hdp
        exact hlift p (hfirst p hp hdp)
    next hc =>
      refine ⟨?_, ?_⟩
      · intro d
        simp only [List.mem_append, List.mem_singleton]
        constructor
        · rintro (hds | hdd)
          · obtain ⟨q, hq, hqd, hqdoi⟩ := (hiff d).mp hds
            exact ⟨q, Or.inl hq, hqd, hqdoi⟩
          · exact ⟨paper, Or.inr rfl, hd, hdd.symm⟩
        · rintro ⟨q, hq | hq, hqd, hqdoi⟩
          · exact Or.inl ((hiff d).mpr ⟨q, hq, hqd, hqdoi⟩)
          · right
            rw [hq] at hqdoi
            exact hqdoi.symm
      · intro p hp hdp
        rcases List.mem_append.mp hp with h1 | h1
        · exact hlift p (hfirst p h1 hdp)
        · have hp' : p = paper := by simpa using h1
          rw [hp']
          have hnone : pre.find? (doiMatches paper.Doi) = none := by
            rw [List.find?_eq_none]
            intro x hx hmatch
            have hxd : hasDoi x = true ∧ x.Doi = paper.Doi := by
              simpa [doiMatches] using hmatch
            have hxdoi : doiOf x = doiOf paper := by
              simp [doiOf, hxd.2]
            have : doiOf paper ∈ s.seenDois :=
              (hiff (doiOf paper)).mpr ⟨x, hx, hxd.1, hxdoi⟩
            exact hc (by simpa using this)
          rw [List.find?_append, hnone]
          simp [doiMatches, hd]
  next hd =>
    have hdp : hasDoi paper = false := by
      cases hpaper : hasDoi paper with
      | true => exact absurd hpaper hd
      | false => rfl
    have hiffExt : ∀ d : String,
        d ∈ s.seenDois ↔ ∃ q ∈ pre ++ [paper], hasDoi q = true ∧ doiOf q = d := by
      intro d
      rw [hiff d]
      constructor
      · rintro ⟨q, hq, h1, h2⟩
        exact ⟨q, List.mem_append_left _ hq, h1, h2⟩
      · rintro ⟨q, hq, h1, h2⟩
        rcases List.mem_append.mp hq with h3 | h3
        · exact ⟨q, h3, h1, h2⟩
        · have hq' : q = paper := by simpa using h3
          rw [hq'] at h1
          simp [hdp] at h1
    split
    next te hfind =>
      split
      next hpref =>
        refine ⟨hiffExt, ?_⟩
        intro p hp h1
        rcases List.mem_append.mp hp with h2 | h2
        · exact hlift p (hfirst p (List.mem_of_mem_erase h2) h1)
        · have hp' : p = paper := by simpa using h2
          rw [hp'] at h1
          simp [hdp] at h1
      next hpref =>
        refine ⟨hiffExt, ?_⟩
        intro p hp h1
        exact hlift p (hfirst p hp h1)
    next hfind =>
      refine ⟨hiffExt, ?_⟩
      intro p hp h1
      rcases List.mem_append.mp hp with h2 | h2
      · exact hlift p (hfirst p h2 h1)
      · have hp' : p = paper := by simpa using h2
        rw [hp'] at h1
        simp [hdp] at h1

lemma foldl_firstOcc : ∀ (l pre : List ExternalPaper) (s : DedupState),
    FirstOccInv pre s → FirstOccInv (pre ++ l) (l.foldl dedupStep s)
  | [], pre, s, h => by simpa using h
  | p :: ps, pre, s, h => by
    have h2 := foldl_firstOcc ps (pre ++ [p]) (dedupStep s p) (dedupStep_firstOcc h)
    simpa using h2

/-- C2 (amended): among papers sharing the same non-empty DOI, only the
first occurrence is ever accepted — every later occurrence is dropped
unconditionally, without consulting the additive preference rule (which
applies only to title-similarity duplicates of DOI-less candidates); see
`claim2Counterexample`.  Formally, every DOI-bearing paper of the output
is the first input paper carrying its DOI. -/
theorem claim2FirstDoiOccurrenceKept (papers : List ExternalPaper) (p : ExternalPaper)
    (hmem : p ∈ DeduplicatePapersAsync papers) (hdoi : hasDoi p = true) :
    papers.find? (doiMatches p.Doi) = some p := by
  have h := foldl_firstOcc papers [] ⟨[], [], []⟩ ⟨by simp, by simp⟩
  exact (by simpa using h : FirstOccInv papers _).2 p hmem hdoi

/-- A DOI-less paper titled `abc`. -/
def c1NoDoiPaper : ExternalPaper := { Title := "abc" }

/-- A DOI-bearing paper with the identical title `abc`. -/
def c1DoiPaper : ExternalPaper := { Title := "abc", Doi := some "10.1000/xyz" }

/-- C1 counterexample: two papers with identical titles (similarity 1,
far above the 0.92 threshold) both survive deduplication when the second
one carries a DOI, because DOI-bearing papers are accepted without any
title-similarity check.  This refutes the claim that no two final results
have title similarity above the threshold regardless of DOIs. -/
theorem claim1Counterexample :
    DeduplicatePapersAsync [c1NoDoiPaper, c1DoiPaper] = [c1NoDoiPaper, c1DoiPaper] ∧
    (0.92 : ℚ) < CalculateJaroWinklerSimilarity c1NoDoiPaper.Title c1DoiPaper.Title := by
  constructor
  · rfl
  · have h1 : CalculateJaroWinklerSimilarity c1NoDoiPaper.Title c1DoiPaper.Title = 1 := rfl
    rw [h1]
    norm_num

/-- First-seen paper of the shared DOI, carrying no extra information. -/
def c2FirstPaper : ExternalPaper := { Title := "first version", Doi := some "10.1000/dup" }

/-- Later paper with the same DOI and strictly more information (PDF URL,
abstract, open access, two authors): preference score 10 against 3. -/
def c2RicherPaper : ExternalPaper :=
  { Title := "second version", Doi := some "10.1000/dup",
    Abstract := "has an abstract", PdfUrl := some "pdf url",
    IsOpenAccess := true,
    Authors := [⟨"alice", none⟩, ⟨"bob", none⟩] }

/-- C2 counterexample: the later occurrence of a duplicated DOI scores
strictly higher under the additive preference rule, yet the output keeps
the first occurrence — DOI duplicates are dropped unconditionally, so the
claimed replace-when-preferable behaviour does not happen. -/
theorem claim2Counterexample :
    preferenceScore c2RicherPaper > preferenceScore c2FirstPaper ∧
    DeduplicatePapersAsync [c2FirstPaper, c2RicherPaper] = [c2FirstPaper] := by
  constructor
  · decide
  · rfl

/-- Witness for C2 (amended) at a concrete input. -/
theorem claim2Witness :
    c2FirstPaper ∈ DeduplicatePapersAsync [c2FirstPaper, c2RicherPaper] ∧
    hasDoi c2FirstPaper = true ∧
    [c2FirstPaper, c2RicherPaper].find? (doiMatches c2FirstPaper.Doi) = some c2FirstPaper :=
  ⟨by decide, by decide,
    claim2FirstDoiOccurrenceKept [c2FirstPaper, c2RicherPaper] c2FirstPaper
      (by decide) (by decide)⟩

/-- C3: the open-access enrichment step never modifies any paper: for
every input list and every behaviour of the resolver (successful lookup,
null result, or thrown exception), the list after
`EnhanceWithOpenAccessAsync` is element-wise identical to the input,
including `IsOpenAccess` and `PdfUrl` — the looked-up record is assigned
only to a lambda-local copy of the paper and discarded. -/
theorem claim3EnhanceLeavesPapersUnchanged
    (lookup : String → Option (Option OpenAccessInfo)) (papers : List ExternalPaper) :
    EnhanceWithOpenAccessAsync lookup papers = papers := rfl

lemma getOrCreateTopic_results (req : SearchRequest) (st : Store) :
    (GetOrCreateTopicAsync req st).2.results = st.results := by
  unfold GetOrCreateTopicAsync
  split <;> rfl

/-- C4: every item of the returned result list and every newly persisted
row has score exactly 0, for every behaviour of the injected ranking
service: `SaveSearchResultsAsync` writes `Score = 0.0`, the ranking
service returns papers without scores, and nothing updates the stored
score before `MapToDto` copies it into the response. -/
theorem claim4ScoresAlwaysZero (deps : SearchDeps) (req : SearchRequest) (st : Store) :
    ((SearchAsync deps req st).2.Results.map SearchResultDto.Score
      = List.replicate (SearchAsync deps req st).2.Results.length 0) ∧
    ((SearchAsync deps req st).1.results.map SearchResult.Score
      = st.results.map SearchResult.Score ++
        List.replicate ((SearchAsync deps req st).1.results.length - st.results.length) 0) := by
  have hres : (GetOrCreateTopicAsync req st).2.results = st.results :=
    getOrCreateTopic_results req st
  constructor
  · simp only [SearchAsync, runStages, searchStages, List.take, List.foldl,
      initPipeState, stageTopic, stageFanOut, stageDedup, stageEnrich, stageFilter,
      stageRank, stageTruncate, stageSave, SaveSearchResultsAsync, MapToDto,
      List.map_map, List.length_map]
    rw [List.eq_replicate_iff]
    refine ⟨by simp, ?_⟩
    intro b hb
    obtain ⟨p, hp, hpb⟩ := List.mem_map.mp hb
    exact hpb.symm
  · simp only [SearchAsync, runStages, searchStages, List.take, List.foldl,
      initPipeState, stageTopic, stageFanOut, stageDedup, stageEnrich, stageFilter,
      stageRank, stageTruncate, stageSave, SaveSearchResultsAsync,
      List.map_append, List.map_map, List.length_append, List.length_map, hres]
    rw [List.append_cancel_left_eq, List.eq_replicate_iff]
    refine ⟨by simp [Nat.add_sub_cancel_left], ?_⟩
    intro b hb
    obtain ⟨p, hp, hpb⟩ := List.mem_map.mp hb
    exact hpb.symm

/-- C9: a source client whose search raises any exception is
indistinguishable from one returning the empty list: the search completes
with the remaining sources' results and no error surfaces to the caller
(`SearchAsync` is total and its outcome is identical under the two
behaviours, because `SearchClientSafelyAsync` catches everything and
substitutes `[]`). -/
theorem claim9FailingSourceDegradesToEmpty
    (pre post : List (Option (List ExternalPaper)))
    (oaLookup : String → Option (Option OpenAccessInfo))
    (rank : String → List ExternalPaper → List ExternalPaper)
    (req : SearchRequest) (st : Store) :
    SearchAsync ⟨pre ++ none :: post, oaLookup, rank⟩ req st =
      SearchAsync ⟨pre ++ some [] :: post, oaLookup, rank⟩ req st ∧
    SearchClientSafelyAsync none = ([] : List ExternalPaper) := by
  refine ⟨?_, rfl⟩
  have hflat : ((pre ++ none :: post).map SearchClientSafelyAsync).flatten =
      ((pre ++ some [] :: post).map SearchClientSafelyAsync).flatten := by
    simp [SearchClientSafelyAsync]
  have hfan : stageFanOut (pre ++ none :: post) = stageFanOut (pre ++ some [] :: post) := by
    funext s
    simp only [stageFanOut, hflat]
  simp only [SearchAsync, runStages, searchStages, hfan]

/-- C10: every request with an invalid year range, a year outside
`[1900, currentYear+1]`, an out-of-bounds limit, or a too-short query is
rejected with a validation error before any source client is invoked: the
controller's outcome is an error, the store is untouched, and the result
does not depend on the source clients at all (the quantification over
`deps` ranges over every possible client behaviour). -/
theorem claim10ValidationRejectsBeforeFanOut
    (currentYear : Int) (req : SearchRequest) (st : Store)
    (hbad :
      (∃ f t, req.YearFrom = some f ∧ req.YearTo = some t ∧ t < f) ∨
      (∃ f, req.YearFrom = some f ∧ (f < 1900 ∨ currentYear + 1 < f)) ∨
      (∃ t, req.YearTo = some t ∧ (t < 1900 ∨ currentYear + 1 < t)) ∨
      req.Limit < 1 ∨ 100 < req.Limit ∨ req.Query.length < 3) :
    ∀ deps : SearchDeps,
      (ControllerSearchAsync deps currentYear req st).1 = st ∧
      ∃ e, (ControllerSearchAsync deps currentYear req st).2 = Except.error e := by
  intro deps
  unfold ControllerSearchAsync
  by_cases hms : modelStateIsValid req = true
  · -- the model state is valid, so the offending input must be a year check
    rw [if_neg (by simp [hms])]
    have hlim1 : ¬ req.Limit < 1 := by
      intro hcon
      simp [modelStateIsValid] at hms
      omega
    have hlim2 : ¬ 100 < req.Limit := by
      intro hcon
      simp [modelStateIsValid] at hms
      omega
    have hq : ¬ req.Query.length < 3 := by
      intro hcon
      simp [modelStateIsValid] at hms
      omega
    rcases hbad with ⟨f, t, hf, ht, hlt⟩ | ⟨f, hf, hout⟩ | ⟨t, ht, hout⟩ | h | h | h
    · have : yearRangeInvalid req = true := by simp [yearRangeInvalid, hf, ht, hlt]
      rw [if_pos this]
      exact ⟨rfl, _, rfl⟩
    · by_cases hyr : yearRangeInvalid req = true
      · rw [if_pos hyr]
        exact ⟨rfl, _, rfl⟩
      · rw [if_neg hyr]
        have : yearFromInvalid currentYear req = true := by
          simp [yearFromInvalid, hf]
          omega
        rw [if_pos this]
        exact ⟨rfl, _, rfl⟩
    · by_cases hyr : yearRangeInvalid req = true
      · rw [if_pos hyr]
        exact ⟨rfl, _, rfl⟩
      · rw [if_neg hyr]
        by_cases hyf : yearFromInvalid currentYear req = true
        · rw [if_pos hyf]
          exact ⟨rfl, _, rfl⟩
        · rw [if_neg hyf]
          have : yearToInvalid currentYear req = true := by
            simp [yearToInvalid, ht]
            omega
          rw [if_pos this]
          exact ⟨rfl, _, rfl⟩
    · exact absurd h hlim1
    · exact absurd h hlim2
    · exact absurd h hq
  · rw [if_pos (by simp [hms])]
    exact ⟨rfl, _, rfl⟩

/-- Witness for C10 at a concrete invalid request (query of length 2). -/
theorem claim10Witness :
    ((∃ f t, (({ Query := "ab" } : SearchRequest)).YearFrom = some f ∧
        (({ Query := "ab" } : SearchRequest)).YearTo = some t ∧ t < f) ∨
      (∃ f, (({ Query := "ab" } : SearchRequest)).YearFrom = some f ∧
        (f < 1900 ∨ (2025 : Int) + 1 < f)) ∨
      (∃ t, (({ Query := "ab" } : SearchRequest)).YearTo = some t ∧
        (t < 1900 ∨ (2025 : Int) + 1 < t)) ∨
      (({ Query := "ab" } : SearchRequest)).Limit < 1 ∨
      100 < (({ Query := "ab" } : SearchRequest)).Limit ∨
      (({ Query := "ab" } : SearchRequest)).Query.length < 3) ∧
    ((ControllerSearchAsync ⟨[], fun _ => none, fun _ l => l⟩ 2025 { Query := "ab" } ⟨[], []⟩).1
        = ⟨[], []⟩ ∧
      ∃ e, (ControllerSearchAsync ⟨[], fun _ => none, fun _ l => l⟩ 2025 { Query := "ab" }
        ⟨[], []⟩).2 = Except.error e) :=
  ⟨Or.inr (Or.inr (Or.inr (Or.inr (Or.inr (by decide))))),
    claim10ValidationRejectsBeforeFanOut 2025 { Query := "ab" } ⟨[], []⟩
      (Or.inr (Or.inr (Or.inr (Or.inr (Or.inr (by decide))))))
      ⟨[], fun _ => none, fun _ l => l⟩⟩

/-- C7 (amended): a search cancelled before completion — cancellation
observed after `k ≤ 7` completed stages, i.e. anywhere before the final
save stage finishes — has persisted no `SearchResult` rows.  (A newly
created `Topic` row may nevertheless already be committed, because topic
creation is the first stage and commits before fan-out; see
`claim7Counterexample`.) -/
theorem claim7CancelledSearchSavesNoResults
    (deps : SearchDeps) (req : SearchRequest) (st : Store) (k : Nat) (hk : k ≤ 7) :
    (runStages deps req st k).store.results = st.results := by
  interval_cases k <;>
    simp [runStages, searchStages, initPipeState, stageTopic, stageFanOut, stageDedup,
      stageEnrich, stageFilter, stageRank, stageTruncate, getOrCreateTopic_results]

/-- Dependencies for the concrete cancelled search: no sources, a throwing
resolver, identity ranking. -/
def c7Deps : SearchDeps := ⟨[], fun _ => none, fun _ l => l⟩

/-- Concrete request for the cancelled search. -/
def c7Request : SearchRequest := { Query := "machine learning" }

/-- C7 counterexample: a search cancelled right after the first stage
(`1 < 8`, so the pipeline did not complete) has already committed a new
`Topic` row — the claim that a cancelled search leaves no persisted rows
(neither Topic nor SearchResult) is false. -/
theorem claim7Counterexample :
    (1 : Nat) < 8 ∧
    (runStages c7Deps c7Request ⟨[], []⟩ 1).store.topics ≠ (⟨[], []⟩ : Store).topics := by
  refine ⟨by decide, ?_⟩
  intro h
  have heval : (runStages c7Deps c7Request ⟨[], []⟩ 1).store.topics =
      [⟨0, "machine learning", "en", none, none⟩] := rfl
  rw [heval] at h
  exact List.cons_ne_nil _ _ h

/-- Witness for C7 (amended) at a concrete cancellation point. -/
theorem claim7Witness :
    (1 : Nat) ≤ 7 ∧
    (runStages c7Deps c7Request ⟨[], []⟩ 1).store.results = (⟨[], []⟩ : Store).results :=
  ⟨by decide, claim7CancelledSearchSavesNoResults c7Deps c7Request ⟨[], []⟩ 1 (by decide)⟩

/-! BM25 keyword score bounds (claims C5 and C6). -/

lemma bm25_le_one (terms : List String) (paper : ExternalPaper) :
    CalculateBM25Score terms paper ≤ 1 := by
  unfold CalculateBM25Score
  simp only []
  split
  · norm_num
  · exact min_le_left _ _

lemma list_sum_nonpos : ∀ {l : List ℝ}, (∀ x ∈ l, x ≤ 0) → l.sum ≤ 0
  | [], _ => le_of_eq rfl
  | x :: l, h => by
    rw [List.sum_cons]
    have h1 := h x (List.mem_cons_self x l)
    have h2 := list_sum_nonpos fun y hy => h y (List.mem_cons_of_mem x hy)
    linarith

lemma bm25_nonneg (terms : List String) (paper : ExternalPaper)
    (hfreq : ∀ t ∈ terms, termFrequency (documentTokens paper) t ≤ 100) :
    0 ≤ CalculateBM25Score terms paper := by
  unfold CalculateBM25Score
  simp only []
  split
  · exact le_refl 0
  · refine le_min (by norm_num) ?_
    refine div_nonneg ?_ (by positivity)
    refine List.sum_nonneg ?_
    intro x hx
    obtain ⟨t, ht, hxv⟩ := List.mem_map.mp hx
    rw [← hxv]
    by_cases h0 : termFrequency (documentTokens paper) t = 0
    · simp [h0]
    · rw [if_neg h0]
      have hm1 : (1 : ℝ) ≤ ((max 1 (termFrequency (documentTokens paper) t) : ℕ) : ℝ) := by
        exact_mod_cast le_max_left 1 _
      have hm100 : ((max 1 (termFrequency (documentTokens paper) t) : ℕ) : ℝ) ≤ 100 := by
        exact_mod_cast max_le (by norm_num) (hfreq t ht)
      refine mul_nonneg ?_ ?_
      · refine Real.log_nonneg ?_
        rw [one_le_div (by linarith)]
        linarith
      · refine div_nonneg (by positivity) ?_
        have hc : (0 : ℝ) ≤
            ((documentTokens paper).length / (documentTokens paper).length : ℕ) :=
          Nat.cast_nonneg _
        have htf : (0 : ℝ) ≤ (termFrequency (documentTokens paper) t : ℝ) :=
          Nat.cast_nonneg _
        nlinarith

/-- C5 (amended): for every query whose tokenized term list is nonempty,
the keyword score computed by the ranker is at most 1, and it is
non-negative whenever every tokenized query term occurs at most 100 times
in the title-plus-abstract document (100 being the pseudo-IDF corpus
size).  The original `[0, 1]` claim fails in two ways: when some term
occurs more than 100 times the pseudo-IDF goes negative and the score
drops below 0 (see `claim5Counterexample`), and when the tokenized term
list is empty (e.g. the valid query `a b`) while the document is
non-empty, the source computes `Math.Min(1.0, 0.0/0)`, a NaN — floating
point behaviour outside this real-valued embedding, hence the nonempty
hypothesis. -/
theorem claim5KeywordScoreBounds (query : String) (paper : ExternalPaper)
    (_hne : TokenizeQuery query ≠ []) :
    CalculateBM25Score (TokenizeQuery query) paper ≤ 1 ∧
    ((∀ t ∈ TokenizeQuery query, termFrequency (documentTokens paper) t ≤ 100) →
      0 ≤ CalculateBM25Score (TokenizeQuery query) paper) :=
  ⟨bm25_le_one _ _, fun h => bm25_nonneg _ _ h⟩

/-- Paper whose title is the token `the` repeated 101 times, making the
term frequency exceed the pseudo-IDF corpus size of 100. -/
def c5Paper : ExternalPaper := { Title := String.join (List.replicate 101 "the ") }

set_option maxRecDepth 20000 in
/-- C5 counterexample: for the query `the` and a paper whose document
contains the term 101 times, the pseudo-IDF `log (100 / 101)` is negative
and `Min(1.0, score)` does not clamp from below, so the keyword score is
strictly negative — outside the claimed interval `[0, 1]`. -/
theorem claim5Counterexample :
    CalculateBM25Score (TokenizeQuery "the") c5Paper < 0 := by
  have hq : TokenizeQuery "the" = ["the"] := by decide
  have hdoc : documentTokens c5Paper = List.replicate 101 "the" := by decide
  have hfr : termFrequency (List.replicate 101 "the") "the" = 101 := by decide
  rw [hq]
  unfold CalculateBM25Score
  simp only []
  rw [hdoc]
  have hie : (List.replicate 101 "the").isEmpty = false := by decide
  rw [if_neg (by simp [hie])]
  refine lt_of_le_of_lt (min_le_right _ _) ?_
  simp only [List.map_cons, List.map_nil, List.sum_cons, List.sum_nil,
    List.length_cons, List.length_nil, List.length_replicate]
  rw [hfr]
  rw [if_neg (by norm_num)]
  have hmax : max 1 101 = 101 := max_eq_right (by norm_num)
  have hdiv : (101 / 101 : ℕ) = 1 := Nat.div_self (by norm_num)
  rw [hmax, hdiv]
  have hlog : Real.log ((100 : ℝ) / ((101 : ℕ) : ℝ)) < 0 := by
    refine Real.log_neg (by positivity) ?_
    push_cast
    norm_num
  have htf : (0 : ℝ) <
      ((101 : ℕ) : ℝ) * ((1.2 : ℝ) + 1) /
        (((101 : ℕ) : ℝ) + (1.2 : ℝ) * (1 - 0.75 + 0.75 * ((1 : ℕ) : ℝ))) := by
    push_cast
    norm_num
  have hmul := mul_neg_of_neg_of_pos hlog htf
  push_cast at hmul ⊢
  norm_num at hmul ⊢
  linarith

/-- Paper with no occurrence of any query term. -/
def c5WitnessPaper : ExternalPaper := { Title := "unrelated words only" }

set_option maxRecDepth 20000 in
/-- Witness for C5 (amended) at a concrete bounded-frequency input with a
nonempty tokenized query. -/
theorem claim5Witness :
    TokenizeQuery "the" ≠ [] ∧
    (∀ t ∈ TokenizeQuery "the", termFrequency (documentTokens c5WitnessPaper) t ≤ 100) ∧
    0 ≤ CalculateBM25Score (TokenizeQuery "the") c5WitnessPaper :=
  ⟨by decide, by decide,
    (claim5KeywordScoreBounds "the" c5WitnessPaper (by decide)).2 (by decide)⟩

/-- C6 (amended): for every query whose tokenized term list is nonempty,
a paper whose title-plus-abstract document contains no token related to
any tokenized query term by substring containment in either direction has
keyword score exactly 0.  Two corrections to the original claim: the
abstract also feeds the score, not just the title (see
`claim6Counterexample`); and with an empty tokenized term list (e.g. the
valid query `a b`) and a non-empty document the source computes
`Math.Min(1.0, 0.0/0)`, a NaN rather than 0 — floating point behaviour
outside this real-valued embedding, hence the nonempty hypothesis. -/
theorem claim6NoMatchingTermsZeroScore (query : String) (paper : ExternalPaper)
    (_hne : TokenizeQuery query ≠ [])
    (h : ∀ t ∈ TokenizeQuery query, termFrequency (documentTokens paper) t = 0) :
    CalculateBM25Score (TokenizeQuery query) paper = 0 := by
  refine le_antisymm ?_ (bm25_nonneg _ _ fun t ht => by rw [h t ht]; norm_num)
  unfold CalculateBM25Score
  simp only []
  split
  · exact le_refl 0
  · refine le_trans (min_le_right _ _) ?_
    refine div_nonpos_iff.mpr (Or.inr ⟨?_, Nat.cast_nonneg _⟩)
    refine list_sum_nonpos ?_
    intro x hx
    obtain ⟨t, ht, hxv⟩ := List.mem_map.mp hx
    rw [← hxv, if_pos (h t ht)]

/-- Paper whose title contains no query term but whose abstract is the
query term verbatim. -/
def c6Paper : ExternalPaper := { Title := "abc", Abstract := "learning" }

set_option maxRecDepth 20000 in
/-- C6 counterexample: the title `abc` contains zero tokenized query
terms of the query `learning`, yet the keyword score is 1 (not 0),
because the term occurs in the abstract and the document scored by BM25
is title-plus-abstract. -/
theorem claim6Counterexample :
    (∀ t ∈ TokenizeQuery "learning", containsSubstr c6Paper.Title t = false) ∧
    CalculateBM25Score (TokenizeQuery "learning") c6Paper = 1 := by
  refine ⟨by decide, ?_⟩
  have hq : TokenizeQuery "learning" = ["learning"] := by decide
  have hdoc : documentTokens c6Paper = ["abc", "learning"] := by decide
  have hfr : termFrequency ["abc", "learning"] "learning" = 1 := by decide
  rw [hq]
  unfold CalculateBM25Score
  simp only []
  rw [hdoc]
  rw [if_neg (by simp)]
  simp only [List.map_cons, List.map_nil, List.sum_cons, List.sum_nil,
    List.length_cons, List.length_nil]
  rw [hfr]
  rw [if_neg (by norm_num)]
  have hmax : max 1 1 = 1 := max_self 1
  have hdiv : (2 / 2 : ℕ) = 1 := Nat.div_self (by norm_num)
  rw [hmax, hdiv]
  have hlog : (1 : ℝ) ≤ Real.log 100 := by
    rw [Real.le_log_iff_exp_le (by norm_num)]
    have h9 := Real.exp_one_lt_d9
    linarith
  have htf : ((1 : ℕ) : ℝ) * ((1.2 : ℝ) + 1) /
      (((1 : ℕ) : ℝ) + (1.2 : ℝ) * (1 - 0.75 + 0.75 * ((1 : ℕ) : ℝ))) = 1 := by
    push_cast
    norm_num
  rw [add_zero, zero_add, htf, mul_one, Nat.cast_one]
  simp only [div_one]
  exact min_eq_left hlog

/-- Paper with a document unrelated to the query `learning`. -/
def c6WitnessPaper : ExternalPaper := { Title := "xyz" }

set_option maxRecDepth 20000 in
/-- Witness for C6 (amended) at a concrete zero-match input with a
nonempty tokenized query. -/
theorem claim6Witness :
    TokenizeQuery "learning" ≠ [] ∧
    (∀ t ∈ TokenizeQuery "learning", termFrequency (documentTokens c6WitnessPaper) t = 0) ∧
    CalculateBM25Score (TokenizeQuery "learning") c6WitnessPaper = 0 :=
  ⟨by decide, by decide,
    claim6NoMatchingTermsZeroScore "learning" c6WitnessPaper (by decide) (by decide)⟩

/-! Stable descending ranking and truncation after ranking (claim C8). -/

lemma scoreDescLe_trans {α : Type} (key : α → ℝ) (a b c : ℕ × α)
    (h1 : scoreDescLe key a b) (h2 : scoreDescLe key b c) : scoreDescLe key a c := by
  simp only [scoreDescLe, decide_eq_true_eq] at h1 h2 ⊢
  rcases h1 with h1 | ⟨h1e, h1i⟩ <;> rcases h2 with h2 | ⟨h2e, h2i⟩
  · exact Or.inl (lt_trans h2 h1)
  · exact Or.inl (h2e ▸ h1)
  · exact Or.inl (lt_of_lt_of_eq h2 h1e.symm)
  · exact Or.inr ⟨h1e.trans h2e, le_trans h1i h2i⟩

lemma scoreDescLe_total {α : Type} (key : α → ℝ) (a b : ℕ × α) :
    scoreDescLe key a b || scoreDescLe key b a := by
  simp only [scoreDescLe, Bool.or_eq_true, decide_eq_true_eq]
  rcases lt_trichotomy (key a.2) (key b.2) with h | h | h
  · exact Or.inr (Or.inl h)
  · rcases Nat.le_total a.1 b.1 with hi | hi
    · exact Or.inl (Or.inr ⟨h, hi⟩)
    · exact Or.inr (Or.inr ⟨h.symm, hi⟩)
  · exact Or.inl (Or.inl h)

lemma rankTagged_perm_enum (currentYear : Int) (query : String) (papers : List ExternalPaper) :
    List.Perm (RankPapersTagged currentYear query papers) papers.enum :=
  List.mergeSort_perm _ _

lemma rankTagged_sorted (currentYear : Int) (query : String) (papers : List ExternalPaper) :
    (RankPapersTagged currentYear query papers).Pairwise
      (fun a b => scoreDescLe (finalScore currentYear (TokenizeQuery query)) a b) :=
  List.sorted_mergeSort
    (scoreDescLe_trans (finalScore currentYear (TokenizeQuery query)))
    (scoreDescLe_total (finalScore currentYear (TokenizeQuery query)))
    papers.enum

/-- C8: the ranking service is a stable descending sort and truncation
happens only after ranking.  Conjuncts: (1) the ranked list is a
permutation of its input; (2) final scores are non-increasing along the
ranked list; (3) the index-tagged ranked list is a permutation of the
position-tagged input; (4) along the tagged ranked list, any two entries
are either in their original relative order or strictly decreasing in
score — so exact ties keep the pre-ranking order (LINQ
`OrderByDescending` is documented as a stable sort and is modelled as a
mergesort on position-tagged papers); (5) in the full pipeline (with the
real ranking service injected) the final results are exactly the first
`limit` elements of the ranked deduplicated candidates, so the top-scored
candidates are never discarded before ranking. -/
theorem claim8StableRankingTruncation
    (currentYear : Int) (query : String) (papers : List ExternalPaper)
    (clientResults : List (Option (List ExternalPaper)))
    (oaLookup : String → Option (Option OpenAccessInfo))
    (req : SearchRequest) (st : Store) :
    List.Perm (RankPapersAsync currentYear query papers) papers ∧
    (RankPapersAsync currentYear query papers).Pairwise
      (fun p1 p2 => finalScore currentYear (TokenizeQuery query) p2 ≤
        finalScore currentYear (TokenizeQuery query) p1) ∧
    (List.Perm (RankPapersTagged currentYear query papers) papers.enum) ∧
    (RankPapersTagged currentYear query papers).Pairwise
      (fun a b => a.1 ≤ b.1 ∨ finalScore currentYear (TokenizeQuery query) b.2 <
        finalScore currentYear (TokenizeQuery query) a.2) ∧
    ((runStages ⟨clientResults, oaLookup, RankPapersAsync currentYear⟩ req st 8).finalResults =
      (RankPapersAsync currentYear req.Query
        ((runStages ⟨clientResults, oaLookup, RankPapersAsync currentYear⟩ req st 5).dedupResults)).take
        req.Limit.toNat) := by
  refine ⟨?_, ?_, rankTagged_perm_enum currentYear query papers, ?_, ?_⟩
  · unfold RankPapersAsync
    split
    · exact List.Perm.refl _
    · have hp : List.Perm ((RankPapersTagged currentYear query papers).map Prod.snd)
          (papers.enum.map Prod.snd) :=
        List.Perm.map _ (rankTagged_perm_enum currentYear query papers)
      rw [List.enum_map_snd papers] at hp
      exact hp
  · unfold RankPapersAsync
    split
    next he =>
      have : papers = [] := List.isEmpty_iff.mp he
      rw [this]
      exact List.Pairwise.nil
    · rw [List.pairwise_map]
      refine (rankTagged_sorted currentYear query papers).imp ?_
      intro a b hab
      simp only [scoreDescLe, decide_eq_true_eq] at hab
      rcases hab with h | ⟨he, _⟩
      · exact le_of_lt h
      · exact le_of_eq he.symm
  · refine (rankTagged_sorted currentYear query papers).imp ?_
    intro a b hab
    simp only [scoreDescLe, decide_eq_true_eq] at hab
    rcases hab with h | ⟨_, hi⟩
    · exact Or.inr h
    · exact Or.inl hi
  · rfl

end ScholarLens
